import Mathlib

/-!
Verification of the ai-core LLM router and layered memory system.

The Go sources are shallowly embedded: float64 cost arithmetic is modelled
with ℚ, Go maps with association lists (first binding wins, matching a map
that never stores two bindings for one key), and the nondeterministic
iteration order of a Go map with an explicit enumeration-order parameter.
Durations are carried in nanoseconds as in Go's time.Duration.
-/

namespace AiCore

/-- llm.Message.  Go's len() on the content string counts UTF-8 bytes,
so byte length is used wherever the source calls len. -/
structure Message where
  role : String
  content : String
  deriving Repr, DecidableEq

/-- llm.ModelInfo with per-million-token costs. -/
structure ModelInfo where
  id : String
  name : String
  maxTokens : Nat
  inputCost : ℚ
  outputCost : ℚ
  features : List String
  deriving Repr, DecidableEq

/-- llm.ModelInfo.HasFeature: linear scan over the features list. -/
def ModelInfo.hasFeature (m : ModelInfo) (feature : String) : Bool :=
  m.features.contains feature

/-- llm.CompletionRequest restricted to the fields the router reads. -/
structure CompletionRequest where
  model : String
  messages : List Message
  maxTokens : Nat
  deriving Repr, DecidableEq

structure Usage where
  promptTokens : Nat
  completionTokens : Nat
  totalTokens : Nat
  deriving Repr, DecidableEq

structure CompletionResponse where
  id : String
  model : String
  content : String
  usage : Usage
  deriving Repr, DecidableEq

/-- Stand-in for a streamx.Stream handle; the router never inspects it. -/
structure StreamHandle where
  id : String
  deriving Repr, DecidableEq

/-- llm.Provider: the behaviour of Complete and Stream is part of the value,
standing for the vendor adapter behind the interface. -/
structure Provider where
  name : String
  models : List ModelInfo
  complete : CompletionRequest → Except String CompletionResponse
  stream : CompletionRequest → Except String StreamHandle

/-- Lookup in an association list modelling a Go map read with the map's
zero value as default. -/
def assocGetD {β : Type} (l : List (String × β)) (k : String) (d : β) : β :=
  (l.lookup k).getD d

/-- router.Strategy is a Go string type; the switch in selectProvider sends
every unlisted value (including "model_match") to the round-robin default. -/
abbrev Strategy := String

/-- router.Router registry state.  Latencies are EWMA values in
nanoseconds.  The round-robin cursor is kept as a Nat: the source resets it
to 0 on overflow, so it is never negative. -/
structure Router where
  providers : List (String × Provider)
  providerList : List String
  weights : List (String × Int)
  modelMap : List (String × String)
  strategy : Strategy
  fallback : String
  healthCheck : Bool
  healthy : List (String × Bool)
  latencies : List (String × Nat)
  rrIndex : Nat

/-- Router.getHealthyProviders. -/
def Router.getHealthyProviders (r : Router) : List String :=
  if !r.healthCheck then r.providerList
  else r.providerList.filter (fun n => assocGetD r.healthy n false)

/-- Router.roundRobinSelect, returning the chosen provider.  The cursor
advance does not affect which provider the current call returns and is
omitted. -/
def Router.roundRobinSelect (r : Router) (available : List String) : Option (String × Provider) :=
  match available.get? (r.rrIndex % available.length) with
  | none => none
  | some n => (r.providers.lookup n).map (fun p => (n, p))

/-- Router.randomSelect; randPick stands for the draw of rand.Intn, reduced
modulo the number of candidates. -/
def Router.randomSelect (r : Router) (available : List String) (randPick : Nat) :
    Option (String × Provider) :=
  match available.get? (randPick % available.length) with
  | none => none
  | some n => (r.providers.lookup n).map (fun p => (n, p))

/-- Router.leastLatencySelect: minimum positive recorded latency, first
candidate when none is recorded. -/
def Router.leastLatencySelect (r : Router) (available : List String) :
    Option (String × Provider) :=
  let sel := available.foldl
    (fun (acc : Nat × String) n =>
      let latency := assocGetD r.latencies n 0
      if latency = 0 then acc
      else if acc.2 = "" ∨ latency < acc.1 then (latency, n) else acc)
    (0, "")
  let chosen := if sel.2 = "" then available.head?.getD "" else sel.2
  (r.providers.lookup chosen).map (fun p => (chosen, p))

/-- The inner model loop of Router.leastCostSelect at provider index i,
including the source's `i == 0 || cost < minCost` update condition (the
`i == 0` disjunct fires for every model of the first provider). -/
def leastCostModels (name model : String) (i : Nat) :
    List ModelInfo → ℚ × String → ℚ × String
  | [], acc => acc
  | m :: rest, acc =>
    let acc :=
      if model ≠ "" ∧ m.id ≠ model then acc
      else
        let cost := m.inputCost + m.outputCost
        if i = 0 ∨ cost < acc.1 then (cost, name) else acc
    leastCostModels name model i rest acc

/-- The outer provider loop of Router.leastCostSelect. -/
def leastCostScan (providers : List (String × Provider)) (model : String) (i : Nat) :
    List String → ℚ × String → ℚ × String
  | [], acc => acc
  | n :: rest, acc =>
    let acc :=
      match providers.lookup n with
      | none => acc
      | some prov => leastCostModels n model i prov.models acc
    leastCostScan providers model (i + 1) rest acc

/-- Router.leastCostSelect. -/
def Router.leastCostSelect (r : Router) (available : List String) (model : String) :
    Option (String × Provider) :=
  let sel := (leastCostScan r.providers model 0 available (0, "")).2
  let chosen := if sel = "" then available.head?.getD "" else sel
  (r.providers.lookup chosen).map (fun p => (chosen, p))

/-- The cumulative-weight walk inside Router.weightedSelect. -/
def weightedPick (weights : List (String × Int)) (available : List String)
    (target current : Int) : Option String :=
  match available with
  | [] => none
  | n :: rest =>
    let current := current + assocGetD weights n 0
    if current > target then some n else weightedPick weights rest target current

/-- Router.weightedSelect; randPick stands for the rand.Intn draw. -/
def Router.weightedSelect (r : Router) (available : List String) (randPick : Nat) :
    Option (String × Provider) :=
  let totalWeight := (available.map (fun n => assocGetD r.weights n 0)).sum
  if totalWeight = 0 then
    (available.head?.getD "") |> fun n => (r.providers.lookup n).map (fun p => (n, p))
  else
    let target : Int := (randPick % totalWeight.toNat : Nat)
    let chosen := (weightedPick r.weights available target 0).getD (available.head?.getD "")
    (r.providers.lookup chosen).map (fun p => (chosen, p))

/-- Router.fallbackSelect: first provider in registration order whose
healthy flag is set (consulted even when health checking is disabled). -/
def Router.fallbackSelect (r : Router) : Option (String × Provider) :=
  match r.providerList.find? (fun n => assocGetD r.healthy n false) with
  | none => none
  | some n => (r.providers.lookup n).map (fun p => (n, p))

/-- Router.selectProvider.  The model-match branch runs before the strategy
switch; a nil provider dereference (unreachable for a well-formed registry)
surfaces as an internal error instead of a Go panic. -/
def Router.selectProvider (r : Router) (req : CompletionRequest) (randPick : Nat) :
    Except String (String × Provider) :=
  if r.providerList.isEmpty then .error "no providers registered"
  else
    let modelHit : Option (String × Provider) :=
      if req.model ≠ "" then
        match r.modelMap.lookup req.model with
        | some provName =>
          match r.providers.lookup provName with
          | some provider =>
            if !r.healthCheck || assocGetD r.healthy provName false then
              some (provName, provider)
            else none
          | none => none
        | none => none
      else none
    match modelHit with
    | some hit => .ok hit
    | none =>
      let available := r.getHealthyProviders
      if available.isEmpty then .error "no healthy providers available"
      else
        let pick : Option (String × Provider) :=
          if r.strategy = "round_robin" then r.roundRobinSelect available
          else if r.strategy = "random" then r.randomSelect available randPick
          else if r.strategy = "least_latency" then r.leastLatencySelect available
          else if r.strategy = "least_cost" then r.leastCostSelect available req.model
          else if r.strategy = "weighted" then r.weightedSelect available randPick
          else if r.strategy = "fallback" then r.fallbackSelect
          else r.roundRobinSelect available
        match pick with
        | some hit => .ok hit
        | none => .error "internal: selected provider not registered"

/-- The name component of selectProvider's result. -/
def Router.selectProviderName (r : Router) (req : CompletionRequest) (randPick : Nat) :
    Option String :=
  (r.selectProvider req randPick).toOption.map Prod.fst

/-- Router.Complete, together with the sequence of provider names invoked
(the observable call trace).  The latency recording touches only the EWMA
state and does not alter the response or the trace. -/
def Router.completeRun (r : Router) (req : CompletionRequest) (randPick : Nat) :
    Except String CompletionResponse × List String :=
  match r.selectProvider req randPick with
  | .error e => (.error e, [])
  | .ok (n, prov) =>
    match prov.complete req with
    | .ok resp => (.ok resp, [n])
    | .error e =>
      if r.fallback ≠ "" then
        match r.providers.lookup r.fallback with
        | some fb => (fb.complete req, [n, r.fallback])
        | none => (.error e, [n])
      else (.error e, [n])

/-- Router.Stream with the same observable call trace as completeRun. -/
def Router.streamRun (r : Router) (req : CompletionRequest) (randPick : Nat) :
    Except String StreamHandle × List String :=
  match r.selectProvider req randPick with
  | .error e => (.error e, [])
  | .ok (n, prov) =>
    match prov.stream req with
    | .ok s => (.ok s, [n])
    | .error e =>
      if r.fallback ≠ "" then
        match r.providers.lookup r.fallback with
        | some fb => (fb.stream req, [n, r.fallback])
        | none => (.error e, [n])
      else (.error e, [n])

/-- Fixture: provider a offers a cheap model (cost 1) and an expensive one
(cost 10); provider b offers a single mid-priced model (cost 5). -/
def modelA1 : ModelInfo :=
  { id := "a1", name := "A1", maxTokens := 1000, inputCost := 1, outputCost := 0, features := [] }

def modelA2 : ModelInfo :=
  { id := "a2", name := "A2", maxTokens := 1000, inputCost := 10, outputCost := 0, features := [] }

def modelB1 : ModelInfo :=
  { id := "b1", name := "B1", maxTokens := 1000, inputCost := 5, outputCost := 0, features := [] }

def provA : Provider :=
  { name := "a", models := [modelA1, modelA2],
    complete := fun _ => .error "unused", stream := fun _ => .error "unused" }

def provB : Provider :=
  { name := "b", models := [modelB1],
    complete := fun _ => .error "unused", stream := fun _ => .error "unused" }

def routerLC : Router :=
  { providers := [("a", provA), ("b", provB)], providerList := ["a", "b"],
    weights := [("a", 1), ("b", 1)],
    modelMap := [("a1", "a"), ("a2", "a"), ("b1", "b")],
    strategy := "least_cost", fallback := "", healthCheck := false,
    healthy := [("a", true), ("b", true)], latencies := [], rrIndex := 0 }

def reqNoModel : CompletionRequest := { model := "", messages := [], maxTokens := 0 }

/-- Fixture: a single always-failing provider that is also the configured
fallback. -/
def provFail : Provider :=
  { name := "p", models := [],
    complete := fun _ => .error "boom", stream := fun _ => .error "boom" }

def routerFB : Router :=
  { providers := [("p", provFail)], providerList := ["p"], weights := [("p", 1)],
    modelMap := [], strategy := "round_robin", fallback := "p", healthCheck := false,
    healthy := [("p", true)], latencies := [], rrIndex := 0 }

/-- Fixture: a registry where requesting model "b1" must route to provider b
regardless of strategy. -/
def routerMM : Router :=
  { providers := [("a", provA), ("b", provB)], providerList := ["a", "b"],
    weights := [("a", 1), ("b", 1)],
    modelMap := [("a1", "a"), ("a2", "a"), ("b1", "b")],
    strategy := "weighted", fallback := "", healthCheck := true,
    healthy := [("a", true), ("b", true)], latencies := [], rrIndex := 0 }

def reqB1 : CompletionRequest := { model := "b1", messages := [], maxTokens := 0 }

/-! Smart router: task-aware candidate filtering and multi-axis scoring on
top of the base registry.  TaskType, TaskComplexity and RoutingPriority are
Go string types and stay strings here. -/

/-- router.RoutingConstraints. -/
structure RoutingConstraints where
  maxLatencyMs : Int
  maxCostPerRequest : ℚ
  maxInputTokens : Int
  preferredProviders : List String
  excludedProviders : List String
  preferredModels : List String
  excludedModels : List String
  requireStreaming : Bool
  requireVision : Bool
  requireFunctionCalling : Bool
  requireJSONMode : Bool
  deriving Repr, DecidableEq

/-- The Go zero value of RoutingConstraints. -/
def defaultConstraints : RoutingConstraints :=
  { maxLatencyMs := 0, maxCostPerRequest := 0, maxInputTokens := 0,
    preferredProviders := [], excludedProviders := [], preferredModels := [],
    excludedModels := [], requireStreaming := false, requireVision := false,
    requireFunctionCalling := false, requireJSONMode := false }

/-- router.RoutingContext (the Hints map is never read by the routing code
and is omitted). -/
structure RoutingContext where
  taskType : String
  complexity : String
  requiredCapabilities : List String
  constraints : RoutingConstraints
  priority : String
  deriving Repr, DecidableEq

/-- router.NewRoutingContext. -/
def newRoutingContext (taskType complexity : String) : RoutingContext :=
  { taskType := taskType, complexity := complexity, requiredCapabilities := [],
    constraints := defaultConstraints, priority := "balanced" }

/-- router.ModelProfile restricted to the fields the scoring code reads. -/
structure ModelProfile where
  id : String
  taskScores : List (String × ℚ)
  complexityScores : List (String × ℚ)
  averageLatencyMs : Int
  deriving Repr, DecidableEq

/-- router.SmartRouter.  The classifier is the behaviour of the configured
TaskClassifier: a request is mapped to a (TaskType, Complexity) pair. -/
structure SmartRouter where
  base : Router
  classifier : Option (CompletionRequest → String × String)
  modelProfiles : List (String × ModelProfile)
  autoClassify : Bool

/-- router.candidate (the provider handle itself is not needed to state the
routing-decision claims). -/
structure Candidate where
  providerName : String
  modelID : String
  modelInfo : ModelInfo
  profile : Option ModelProfile
  deriving Repr, DecidableEq

/-- router.candidateScore. -/
structure CandidateScore where
  total : ℚ
  taskScore : ℚ
  complexityScore : ℚ
  costScore : ℚ
  latencyScore : ℚ
  capabilityScore : ℚ
  preferenceScore : ℚ
  deriving Repr, DecidableEq

/-- router.scoredCandidate. -/
structure ScoredCandidate where
  candidate : Candidate
  score : CandidateScore
  deriving Repr, DecidableEq

/-- router.AlternativeModel (the Reason string is presentation only). -/
structure AlternativeModel where
  providerName : String
  modelID : String
  score : ℚ
  deriving Repr, DecidableEq

/-- router.RoutingDecision restricted to the fields the claims are about
(Reason, DecidedAt and Metadata are presentation only). -/
structure RoutingDecision where
  providerName : String
  modelID : String
  modelInfo : ModelInfo
  score : ℚ
  scores : CandidateScore
  estimatedCost : ℚ
  estimatedLatency : Int
  alternatives : List AlternativeModel
  deriving Repr, DecidableEq

/-- SmartRouter.isProviderExcluded. -/
def isProviderExcluded (name : String) (ctx : Option RoutingContext) : Bool :=
  match ctx with
  | none => false
  | some c =>
    if c.constraints.excludedProviders.isEmpty then false
    else c.constraints.excludedProviders.contains name

/-- SmartRouter.isModelExcluded. -/
def isModelExcluded (modelID : String) (ctx : Option RoutingContext) : Bool :=
  match ctx with
  | none => false
  | some c =>
    if c.constraints.excludedModels.isEmpty then false
    else c.constraints.excludedModels.contains modelID

/-- SmartRouter.meetsCapabilityRequirements. -/
def meetsCapabilityRequirements (model : ModelInfo) (ctx : Option RoutingContext) : Bool :=
  match ctx with
  | none => true
  | some c =>
    c.requiredCapabilities.all (fun cap => model.hasFeature cap) &&
    (!c.constraints.requireVision || model.hasFeature "vision") &&
    (!c.constraints.requireFunctionCalling || model.hasFeature "functions") &&
    (!c.constraints.requireStreaming || model.hasFeature "streaming") &&
    (!c.constraints.requireJSONMode || model.hasFeature "json_mode")

/-- SmartRouter.getCandidates.  Go iterates the providers map, whose order
the runtime randomizes, so the enumeration order is an explicit parameter;
a faithful run supplies some permutation of the registered provider names. -/
def SmartRouter.getCandidates (r : SmartRouter) (ctx : Option RoutingContext) :
    List String → List Candidate
  | [] => []
  | name :: rest =>
    let here :=
      match r.base.providers.lookup name with
      | none => []
      | some prov =>
        if isProviderExcluded name ctx then []
        else if r.base.healthCheck && !(assocGetD r.base.healthy name false) then []
        else
          (prov.models.filter
            (fun m => !(isModelExcluded m.id ctx) && meetsCapabilityRequirements m ctx)).map
            (fun m =>
              { providerName := name, modelID := m.id, modelInfo := m,
                profile := r.modelProfiles.lookup m.id })
    here ++ SmartRouter.getCandidates r ctx rest

/-- SmartRouter.calculateTaskScore. -/
def calculateTaskScore (c : Candidate) (ctx : Option RoutingContext) : ℚ :=
  match c.profile, ctx with
  | some p, some cx =>
    if cx.taskType = "" then 1/2
    else
      match p.taskScores.lookup cx.taskType with
      | some s => s
      | none => 1/2
  | _, _ => 1/2

/-- SmartRouter.calculateComplexityScore. -/
def calculateComplexityScore (c : Candidate) (ctx : Option RoutingContext) : ℚ :=
  match c.profile, ctx with
  | some p, some cx =>
    if cx.complexity = "" then 1/2
    else
      match p.complexityScores.lookup cx.complexity with
      | some s => s
      | none => 1/2
  | _, _ => 1/2

/-- SmartRouter.estimateCost: message lengths are byte lengths, each divided
by 4 with integer truncation before summing, as in the source loop. -/
def estimateCost (c : Candidate) (req : CompletionRequest) : ℚ :=
  let inputTokens : Nat := (req.messages.map (fun m => m.content.utf8ByteSize / 4)).sum
  let outputTokens : Nat := if req.maxTokens = 0 then 500 else req.maxTokens
  (inputTokens : ℚ) * c.modelInfo.inputCost / 1000000 +
    (outputTokens : ℚ) * c.modelInfo.outputCost / 1000000

/-- SmartRouter.calculateCostScore. -/
def calculateCostScore (c : Candidate) (ctx : Option RoutingContext)
    (req : CompletionRequest) : ℚ :=
  let estimatedCost := estimateCost c req
  let overBudget : Bool :=
    match ctx with
    | some cx =>
      decide (cx.constraints.maxCostPerRequest > 0 ∧
        estimatedCost > cx.constraints.maxCostPerRequest)
    | none => false
  if overBudget then 0
  else if estimatedCost ≥ 1/10 then 1/10
  else 1 - estimatedCost / (1/10)

/-- SmartRouter.calculateLatencyScore.  Latencies are nanoseconds; Go's
Duration.Milliseconds() is integer division by 10^6. -/
def calculateLatencyScore (r : SmartRouter) (c : Candidate)
    (ctx : Option RoutingContext) : ℚ :=
  let fromHistory : Nat := assocGetD r.base.latencies c.providerName 0
  let latencyNs : Nat :=
    match c.profile with
    | some p => if p.averageLatencyMs > 0 then p.averageLatencyMs.toNat * 1000000 else fromHistory
    | none => fromHistory
  if latencyNs = 0 then 1/2
  else
    let ms : Nat := latencyNs / 1000000
    let overLimit : Bool :=
      match ctx with
      | some cx =>
        decide (cx.constraints.maxLatencyMs > 0 ∧ (ms : Int) > cx.constraints.maxLatencyMs)
      | none => false
    if overLimit then 0
    else if (ms : ℚ) ≥ 10000 then 1/10
    else 1 - (ms : ℚ) / 10000

/-- SmartRouter.calculateCapabilityScore. -/
def calculateCapabilityScore (c : Candidate) (ctx : Option RoutingContext) : ℚ :=
  match ctx with
  | none => 1
  | some cx =>
    if cx.requiredCapabilities.isEmpty then 1
    else
      ((cx.requiredCapabilities.filter (fun cap => c.modelInfo.hasFeature cap)).length : ℚ) /
        (cx.requiredCapabilities.length : ℚ)

/-- SmartRouter.calculatePreferenceScore. -/
def calculatePreferenceScore (c : Candidate) (ctx : Option RoutingContext) : ℚ :=
  match ctx with
  | none => 1/2
  | some cx =>
    let s : ℚ := 1/2
    let s := if cx.constraints.preferredProviders.contains c.providerName then s + 3/10 else s
    let s := if cx.constraints.preferredModels.contains c.modelID then s + 2/10 else s
    if s > 1 then 1 else s

/-- SmartRouter.calculateTotalScore: priority-dependent weighting. -/
def calculateTotalScore (s : CandidateScore) (ctx : Option RoutingContext) : ℚ :=
  let priority :=
    match ctx with
    | some cx => if cx.priority = "" then "balanced" else cx.priority
    | none => "balanced"
  if priority = "quality" then
    s.taskScore * (4/10) + s.complexityScore * (25/100) + s.capabilityScore * (2/10) +
      s.costScore * (5/100) + s.latencyScore * (5/100) + s.preferenceScore * (5/100)
  else if priority = "cost" then
    s.costScore * (5/10) + s.taskScore * (2/10) + s.complexityScore * (1/10) +
      s.capabilityScore * (1/10) + s.latencyScore * (5/100) + s.preferenceScore * (5/100)
  else if priority = "latency" then
    s.latencyScore * (5/10) + s.taskScore * (2/10) + s.complexityScore * (1/10) +
      s.capabilityScore * (1/10) + s.costScore * (5/100) + s.preferenceScore * (5/100)
  else
    s.taskScore * (25/100) + s.complexityScore * (15/100) + s.costScore * (2/10) +
      s.latencyScore * (15/100) + s.capabilityScore * (15/100) + s.preferenceScore * (1/10)

/-- SmartRouter.calculateScore. -/
def SmartRouter.calculateScore (r : SmartRouter) (c : Candidate)
    (ctx : Option RoutingContext) (req : CompletionRequest) : CandidateScore :=
  let axes : CandidateScore :=
    { total := 0,
      taskScore := calculateTaskScore c ctx,
      complexityScore := calculateComplexityScore c ctx,
      costScore := calculateCostScore c ctx req,
      latencyScore := calculateLatencyScore r c ctx,
      capabilityScore := calculateCapabilityScore c ctx,
      preferenceScore := calculatePreferenceScore c ctx }
  { axes with total := calculateTotalScore axes ctx }

/-- SmartRouter.estimateLatency. -/
def SmartRouter.estimateLatency (r : SmartRouter) (c : Candidate) : Int :=
  let fromProfile : Option Int :=
    match c.profile with
    | some p => if p.averageLatencyMs > 0 then some p.averageLatencyMs else none
    | none => none
  match fromProfile with
  | some v => v
  | none =>
    let latencyNs := assocGetD r.base.latencies c.providerName 0
    if latencyNs > 0 then ((latencyNs / 1000000 : Nat) : Int) else 1000

/-- SmartRouter.autoClassifyRequest. -/
def SmartRouter.autoClassifyRequest (r : SmartRouter) (req : CompletionRequest) :
    Option RoutingContext :=
  if !r.autoClassify then none
  else
    match r.classifier with
    | none => none
    | some cl => some (newRoutingContext (cl req).1 (cl req).2)

/-- The routing context Route actually scores against: the caller's context,
or the auto-classified one when the caller passes none. -/
def SmartRouter.effectiveCtx (r : SmartRouter) (req : CompletionRequest)
    (routingCtx : Option RoutingContext) : Option RoutingContext :=
  match routingCtx with
  | none => r.autoClassifyRequest req
  | some c => some c

/-- The scored candidate list built inside SmartRouter.Route. -/
def SmartRouter.scoredCandidates (r : SmartRouter) (req : CompletionRequest)
    (routingCtx : Option RoutingContext) (order : List String) : List ScoredCandidate :=
  (r.getCandidates (r.effectiveCtx req routingCtx) order).map
    (fun c => { candidate := c, score := r.calculateScore c (r.effectiveCtx req routingCtx) req })

/-- SmartRouter.Route.  The source sorts with sort.Slice, which for the
small slices it receives runs insertion sort on the comparison
`total_i > total_j`; that behaviour is List.insertionSort with the
complementary non-strict relation, keeping enumeration order on ties.
sort.Slice gives no stability guarantee beyond that. -/
def SmartRouter.route (r : SmartRouter) (req : CompletionRequest)
    (routingCtx : Option RoutingContext) (order : List String) :
    Except String RoutingDecision :=
  let sorted := List.insertionSort (fun a b : ScoredCandidate => b.score.total ≤ a.score.total)
    (r.scoredCandidates req routingCtx order)
  match sorted with
  | [] => .error "no candidates satisfy the routing constraints"
  | best :: rest =>
    .ok { providerName := best.candidate.providerName,
          modelID := best.candidate.modelID,
          modelInfo := best.candidate.modelInfo,
          score := best.score.total,
          scores := best.score,
          estimatedCost := estimateCost best.candidate req,
          estimatedLatency := r.estimateLatency best.candidate,
          alternatives := (rest.take 3).map
            (fun alt =>
              { providerName := alt.candidate.providerName,
                modelID := alt.candidate.modelID,
                score := alt.score.total }) }

/-- SmartRouter.StreamWithRouting up to and including its routing decision:
only a non-nil caller context gets the streaming requirement force-added
before Route runs. -/
def SmartRouter.streamRouteDecision (r : SmartRouter) (req : CompletionRequest)
    (routingCtx : Option RoutingContext) (order : List String) :
    Except String RoutingDecision :=
  let routingCtx :=
    match routingCtx with
    | some c =>
      some { c with
        constraints := { c.constraints with requireStreaming := true },
        requiredCapabilities := c.requiredCapabilities ++ ["streaming"] }
    | none => none
  r.route req routingCtx order

/-- The provider name of a routing decision, when one is produced. -/
def routeProviderName (r : SmartRouter) (req : CompletionRequest)
    (routingCtx : Option RoutingContext) (order : List String) : Option String :=
  (r.route req routingCtx order).toOption.map RoutingDecision.providerName

/-- The model id of a stream routing decision, when one is produced. -/
def streamRouteModelID (r : SmartRouter) (req : CompletionRequest)
    (routingCtx : Option RoutingContext) (order : List String) : Option String :=
  (r.streamRouteDecision req routingCtx order).toOption.map RoutingDecision.modelID

/-- The cost axis as the specification words it: 0 when the estimate
exceeds a positive max_cost_per_request, otherwise 1 - cost/0.1 clamped to
be at least 0.1. -/
def costScoreSpec (c : Candidate) (ctx : Option RoutingContext)
    (req : CompletionRequest) : ℚ :=
  let estimatedCost := estimateCost c req
  let overBudget : Bool :=
    match ctx with
    | some cx =>
      decide (cx.constraints.maxCostPerRequest > 0 ∧
        estimatedCost > cx.constraints.maxCostPerRequest)
    | none => false
  if overBudget then 0
  else max (1 - estimatedCost / (1/10)) (1/10)

/-- The estimated request cost written directly from the specification's
formula Sigma(len(msg.content)/4 * input_cost + output_tokens * output_cost) / 1e6. -/
def estimatedCostSpec (c : Candidate) (req : CompletionRequest) : ℚ :=
  let inputTokens : Nat := (req.messages.map (fun m => m.content.utf8ByteSize / 4)).sum
  let outputTokens : Nat := if req.maxTokens = 0 then 500 else req.maxTokens
  ((inputTokens : ℚ) * c.modelInfo.inputCost + (outputTokens : ℚ) * c.modelInfo.outputCost) /
    1000000

/-- The amended cost axis: the 0.1 floor applies only once the estimate
reaches 0.1; below that the raw 1 - cost/0.1 is returned even when it is
smaller than 0.1. -/
def costScoreSpecAmended (c : Candidate) (ctx : Option RoutingContext)
    (req : CompletionRequest) : ℚ :=
  let cost := estimatedCostSpec c req
  let overBudget : Bool :=
    match ctx with
    | some cx =>
      decide (cx.constraints.maxCostPerRequest > 0 ∧ cost > cx.constraints.maxCostPerRequest)
    | none => false
  if overBudget then 0
  else if cost < 1/10 then 1 - cost / (1/10)
  else 1/10

/-- Fixture for the cost-axis divergence: a model whose estimated request
cost is 0.095, inside a budget of 1. -/
def modelCS : ModelInfo :=
  { id := "c", name := "C", maxTokens := 0, inputCost := 0, outputCost := 190, features := [] }

def candCS : Candidate :=
  { providerName := "p", modelID := "c", modelInfo := modelCS, profile := none }

def ctxCS : RoutingContext :=
  { newRoutingContext "chat" "medium" with
    constraints := { defaultConstraints with maxCostPerRequest := 1 } }

/-- The first element of a list attaining the maximum of f, or none for the
empty list. -/
def firstMaxBy {α : Type} (f : α → ℚ) : List α → Option α
  | [] => none
  | x :: xs =>
    match firstMaxBy f xs with
    | none => some x
    | some y => if f y ≤ f x then some x else some y

/-- Fixture for the enumeration-order dependence of Route: two providers,
one identically-priced model each, no profiles, no context. -/
def modelMA : ModelInfo :=
  { id := "ma", name := "MA", maxTokens := 1000, inputCost := 0, outputCost := 0, features := [] }

def modelMB : ModelInfo :=
  { id := "mb", name := "MB", maxTokens := 1000, inputCost := 0, outputCost := 0, features := [] }

def provTieA : Provider :=
  { name := "a", models := [modelMA],
    complete := fun _ => .error "unused", stream := fun _ => .error "unused" }

def provTieB : Provider :=
  { name := "b", models := [modelMB],
    complete := fun _ => .error "unused", stream := fun _ => .error "unused" }

def routerTie : Router :=
  { providers := [("a", provTieA), ("b", provTieB)], providerList := ["a", "b"],
    weights := [("a", 1), ("b", 1)], modelMap := [("ma", "a"), ("mb", "b")],
    strategy := "round_robin", fallback := "", healthCheck := false,
    healthy := [("a", true), ("b", true)], latencies := [], rrIndex := 0 }

def smartTie : SmartRouter :=
  { base := routerTie, classifier := none, modelProfiles := [], autoClassify := false }

/-- Fixture for the streaming-capability gap: the only registered model does
not advertise the streaming feature, and the caller passes no routing
context while auto-classification is enabled. -/
def modelNS : ModelInfo :=
  { id := "m", name := "M", maxTokens := 1000, inputCost := 0, outputCost := 0,
    features := ["functions"] }

def provNS : Provider :=
  { name := "p", models := [modelNS],
    complete := fun _ => .error "unused", stream := fun _ => .error "unused" }

def routerNS : Router :=
  { providers := [("p", provNS)], providerList := ["p"], weights := [("p", 1)],
    modelMap := [("m", "p")], strategy := "round_robin", fallback := "",
    healthCheck := false, healthy := [("p", true)], latencies := [], rrIndex := 0 }

def smartNS : SmartRouter :=
  { base := routerNS, classifier := some (fun _ => ("chat", "simple")),
    modelProfiles := [], autoClassify := true }

/-! Memory subsystem: buffer, summary, vector and multi-layer memories.
Times are Unix-style naturals with 0 as Go's zero time; metadata values are
the strings and numbers the code actually stores. -/

/-- A metadata value: the code stores strings (roles, layer tags) and
numbers (scores, timestamps) in its map of string to any. -/
inductive MetaValue where
  | str : String → MetaValue
  | num : ℚ → MetaValue
  deriving Repr, DecidableEq

/-- memory.Entry. -/
structure Entry where
  id : String
  role : String
  content : String
  metadata : List (String × MetaValue)
  embedding : List ℚ
  createdAt : Nat
  updatedAt : Nat
  deriving Repr, DecidableEq

/-- memory.SearchQuery (OrderBy is never read by the code). -/
structure SearchQuery where
  query : String
  embedding : List ℚ
  limit : Int
  offset : Int
  roles : List String
  sinceTime : Option Nat
  untilTime : Option Nat
  metadata : List (String × MetaValue)
  orderDesc : Bool
  deriving Repr, DecidableEq

/-- memory.MemoryStats. -/
structure MemoryStats where
  entryCount : Nat
  tokenCount : Nat
  oldestEntry : Option Nat
  newestEntry : Option Nat
  deriving Repr, DecidableEq

/-- memory.BufferMemory: a bounded FIFO log. -/
structure BufferMemory where
  entries : List Entry
  capacity : Nat
  deriving Repr, DecidableEq

/-- memory.NewBuffer: non-positive capacities fall back to 100. -/
def NewBuffer (capacity : Int) : BufferMemory :=
  { entries := [], capacity := if capacity ≤ 0 then 100 else capacity.toNat }

/-- The id/timestamp assignment at the top of BufferMemory.Save; the fresh
id and clock reading are explicit arguments of the embedding. -/
def stampEntry (freshId : String) (now : Nat) (e : Entry) : Entry :=
  let e := if e.id = "" then { e with id := freshId } else e
  if e.createdAt = 0 then { e with createdAt := now } else e

/-- BufferMemory.Save: drop the oldest entry when full, then append. -/
def BufferMemory.save (m : BufferMemory) (freshId : String) (now : Nat) (e : Entry) :
    BufferMemory :=
  let e := stampEntry freshId now e
  let entries := if m.entries.length ≥ m.capacity then m.entries.tail else m.entries
  { m with entries := entries ++ [e] }

/-- A sequence of Saves with their respective fresh ids and clock values. -/
def BufferMemory.saveMany (m : BufferMemory) : List (String × Nat × Entry) → BufferMemory
  | [] => m
  | x :: rest => (m.save x.1 x.2.1 x.2.2).saveMany rest

/-- The entries a sequence of Saves stores, after id/timestamp assignment. -/
def stampedEntries (xs : List (String × Nat × Entry)) : List Entry :=
  xs.map (fun x => stampEntry x.1 x.2.1 x.2.2)

/-- BufferMemory.Get: first entry with the given id, (nil, nil) when
absent. -/
def BufferMemory.get (m : BufferMemory) (id : String) : Except String (Option Entry) :=
  .ok (m.entries.find? (fun e => e.id = id))

/-- memory.matchQuery: role, time-range and exact-match metadata filters. -/
def matchQuery (e : Entry) (q : SearchQuery) : Bool :=
  (q.roles.isEmpty || q.roles.contains e.role) &&
  (match q.sinceTime with | none => true | some s => decide (¬ e.createdAt < s)) &&
  (match q.untilTime with | none => true | some u => decide (¬ e.createdAt > u)) &&
  (q.metadata.isEmpty || q.metadata.all (fun kv => e.metadata.lookup kv.1 = some kv.2))

/-- BufferMemory.Search: filter, optional reversal, then offset/limit
slicing. -/
def BufferMemory.search (m : BufferMemory) (q : SearchQuery) : List Entry :=
  let results := m.entries.filter (fun e => matchQuery e q)
  let results := if q.orderDesc then results.reverse else results
  let start : Int := if q.offset < 0 then 0 else q.offset
  if start ≥ (results.length : Int) then []
  else
    let startN : Nat := start.toNat
    let endN : Nat :=
      if q.limit > 0 ∧ (startN + q.limit.toNat) < results.length then startN + q.limit.toNat
      else results.length
    (results.drop startN).take (endN - startN)

/-- BufferMemory.Stats: the TokenCount field is never assigned and stays at
its zero value. -/
def BufferMemory.stats (m : BufferMemory) : MemoryStats :=
  { entryCount := m.entries.length, tokenCount := 0,
    oldestEntry := m.entries.head?.map Entry.createdAt,
    newestEntry := m.entries.getLast?.map Entry.createdAt }

/-- BufferMemory.Clear. -/
def BufferMemory.clear (m : BufferMemory) : BufferMemory :=
  { m with entries := [] }

/-- memory.SummaryConfig.  Go stores the one-shot prompt as a format
string; the embedding carries the formatting function it induces. -/
structure SummaryConfig where
  maxEntries : Int
  maxTokens : Int
  keepRecent : Int
  summaryPromptFmt : String → String
  progressiveSummary : Bool
  bufferCapacity : Int

/-- memory.SummaryMemory. -/
structure SummaryMemory where
  buffer : BufferMemory
  config : SummaryConfig
  summary : String
  summaryTime : Nat

/-- The progressive summary prompt constant, applied to the previous
summary and the new transcript as fmt.Sprintf does. -/
def progressiveSummaryPromptFmt (oldSummary content : String) : String :=
  "你正在更新一份对话摘要。\n\n当前摘要：\n" ++ oldSummary ++ "\n\n新对话内容：\n" ++
    content ++ "\n\n请将新内容融入现有摘要，生成一份更新后的完整摘要。保持简洁，只保留关键信息。"

/-- The role-colon-content transcript doSummarize builds from the entries
to be compressed. -/
def transcript (entries : List Entry) : String :=
  String.join (entries.map (fun e => e.role ++ ": " ++ e.content ++ "\n"))

/-- The prompt doSummarize sends to the summarizer in a given state. -/
def SummaryMemory.compressionPrompt (m : SummaryMemory) : String :=
  let entries := m.buffer.entries
  let keep := m.config.keepRecent.toNat
  let content := transcript (entries.take (entries.length - keep))
  if m.config.progressiveSummary && m.summary ≠ "" then
    progressiveSummaryPromptFmt m.summary content
  else m.config.summaryPromptFmt content

/-- SummaryMemory.shouldSummarize, reading the buffer's Stats (whose
TokenCount is always 0). -/
def SummaryMemory.shouldSummarize (m : SummaryMemory) : Bool :=
  let stats := m.buffer.stats
  decide ((m.config.maxEntries > 0 ∧ (stats.entryCount : Int) > m.config.maxEntries) ∨
    (m.config.maxTokens > 0 ∧ (stats.tokenCount : Int) > m.config.maxTokens))

/-- SummaryMemory.doSummarize: on summarizer success replace the summary,
clear the buffer and re-insert the KeepRecent most recent entries (their
ids and timestamps are already set, so re-saving stores them unchanged); on
failure leave the state as it is.  A negative KeepRecent would panic in Go
at the slice bound and is outside the embedding's use. -/
def SummaryMemory.doSummarize (m : SummaryMemory)
    (summarizer : String → Except String String) (now : Nat) : SummaryMemory :=
  let entries := m.buffer.entries
  if (entries.length : Int) ≤ m.config.keepRecent then m
  else
    let keep := m.config.keepRecent.toNat
    let recent := entries.drop (entries.length - keep)
    match summarizer m.compressionPrompt with
    | .error _ => m
    | .ok newSummary =>
      { m with summary := newSummary, summaryTime := now,
               buffer := recent.foldl (fun b e => b.save "" 0 e) m.buffer.clear }

/-- SummaryMemory.Save: store into the buffer, then compress when the
threshold check fires; a summarize failure is swallowed, so the save always
returns nil. -/
def SummaryMemory.save (m : SummaryMemory) (summarizer : String → Except String String)
    (freshId : String) (now : Nat) (e : Entry) : Except String SummaryMemory :=
  let m := { m with buffer := m.buffer.save freshId now e }
  if m.shouldSummarize then .ok (m.doSummarize summarizer now) else .ok m

/-- SummaryMemory.Get delegates to the buffer. -/
def SummaryMemory.get (m : SummaryMemory) (id : String) : Except String (Option Entry) :=
  m.buffer.get id

/-- SummaryMemory.Search delegates to the buffer. -/
def SummaryMemory.search (m : SummaryMemory) (q : SearchQuery) : List Entry :=
  m.buffer.search q

/-- memory.VectorResult. -/
structure VectorResult where
  id : String
  score : ℚ
  metadata : List (String × MetaValue)
  deriving Repr, DecidableEq

/-- memory.VectorMemory for the read operations the claims are about.  The
embedder and the vector store's Search are the behaviours of the configured
collaborators. -/
structure VectorMemory where
  entries : List (String × Entry)
  embedder : List String → Except String (List (List ℚ))
  storeSearch : List ℚ → Int → Except String (List VectorResult)
  minScore : ℚ
  defaultTopK : Int

/-- Map assignment on the metadata association list. -/
def metaInsert (md : List (String × MetaValue)) (k : String) (v : MetaValue) :
    List (String × MetaValue) :=
  if (md.lookup k).isSome then md.map (fun kv => if kv.1 = k then (k, v) else kv)
  else md ++ [(k, v)]

/-- VectorMemory.Get: map lookup, (nil, nil) when absent. -/
def VectorMemory.get (m : VectorMemory) (id : String) : Except String (Option Entry) :=
  .ok (m.entries.lookup id)

/-- The scored-entry assembly of VectorMemory.Search's vector branch:
filter by MinScore, cross-reference the local map, apply matchQuery, and
inject the score into the metadata. -/
def vectorHits (m : VectorMemory) (q : SearchQuery) (results : List VectorResult) :
    List Entry :=
  results.filterMap (fun res =>
    if res.score < m.minScore then none
    else
      match m.entries.lookup res.id with
      | none => none
      | some entry =>
        if !(matchQuery entry q) then none
        else some { entry with metadata := metaInsert entry.metadata "_score" (.num res.score) })

/-- VectorMemory.Search.  The fallback scan without a query vector walks
the entries map, whose order Go randomizes; the embedding walks insertion
order (no claim depends on that path's order). -/
def VectorMemory.search (m : VectorMemory) (q : SearchQuery) : Except String (List Entry) :=
  let topK : Int := if q.limit ≤ 0 then m.defaultTopK else q.limit
  let embExc : Except String (List ℚ) :=
    if q.embedding.length > 0 then .ok q.embedding
    else if q.query ≠ "" then
      match m.embedder [q.query] with
      | .error err => .error ("generate query embedding: " ++ err)
      | .ok embs => .ok (embs.head?.getD [])
    else .ok []
  match embExc with
  | .error err => .error err
  | .ok emb =>
    if emb.length > 0 then
      match m.storeSearch emb topK with
      | .error err => .error ("vector search: " ++ err)
      | .ok results => .ok (vectorHits m q results)
    else
      let matching := (m.entries.map Prod.snd).filter (fun e => matchQuery e q)
      let sorted := List.insertionSort
        (fun a b : Entry =>
          if q.orderDesc then b.createdAt ≤ a.createdAt else a.createdAt ≤ b.createdAt)
        matching
      let start : Int := q.offset
      if start > (sorted.length : Int) then .ok []
      else
        let startN := start.toNat
        let endN : Nat :=
          if q.limit > 0 ∧ (startN + q.limit.toNat) < sorted.length then startN + q.limit.toNat
          else sorted.length
        .ok ((sorted.drop startN).take (endN - startN))

/-- memory.MultiLayerMemory: working buffer plus optional short-term and
long-term tiers. -/
structure MultiLayerMemory where
  working : BufferMemory
  shortTerm : Option SummaryMemory
  longTerm : Option VectorMemory

/-- memory.addLayerMeta. -/
def tagLayer (layer : String) (e : Entry) : Entry :=
  { e with metadata := metaInsert e.metadata "_layer" (.str layer) }

/-- The final limit truncation MultiLayerMemory.Search applies to the
aggregated list. -/
def truncLimit (limit : Int) (l : List Entry) : List Entry :=
  if limit > 0 ∧ (l.length : Int) > limit then l.take limit.toNat else l

/-- MultiLayerMemory.Search: aggregate the tiers, tagging each entry's
metadata with its layer; the long-term tier contributes only when the query
has text or a vector, and an erroring tier contributes nothing; finally the
aggregate is truncated to the query limit. -/
def MultiLayerMemory.search (m : MultiLayerMemory) (q : SearchQuery) : List Entry :=
  let fromWorking := (m.working.search q).map (tagLayer "working")
  let fromShort :=
    match m.shortTerm with
    | none => []
    | some st => (st.search q).map (tagLayer "short_term")
  let fromLong :=
    match m.longTerm with
    | none => []
    | some lt =>
      if q.query ≠ "" ∨ q.embedding.length > 0 then
        match lt.search q with
        | .ok entries => entries.map (tagLayer "long_term")
        | .error _ => []
      else []
  truncLimit q.limit (fromWorking ++ fromShort ++ fromLong)

/-- MultiLayerMemory.SearchLayer. -/
def MultiLayerMemory.searchLayer (m : MultiLayerMemory) (layer : String) (q : SearchQuery) :
    Except String (List Entry) :=
  if layer = "working" then .ok (m.working.search q)
  else if layer = "short_term" then
    match m.shortTerm with
    | some st => .ok (st.search q)
    | none => .error ("layer " ++ layer ++ " not available")
  else if layer = "long_term" then
    match m.longTerm with
    | some lt => lt.search q
    | none => .error ("layer " ++ layer ++ " not available")
  else .error ("layer " ++ layer ++ " not available")

/-- MultiLayerMemory.Get: working, then short-term, then long-term, with
each tier's error ignored; (nil, nil) when no tier has the id. -/
def MultiLayerMemory.get (m : MultiLayerMemory) (id : String) : Except String (Option Entry) :=
  let w := match m.working.get id with | .ok (some e) => some e | _ => none
  match w with
  | some e => .ok (some e)
  | none =>
    let s :=
      match m.shortTerm with
      | some st => match st.get id with | .ok (some e) => some e | _ => none
      | none => none
    match s with
    | some e => .ok (some e)
    | none =>
      let l :=
        match m.longTerm with
        | some lt => match lt.get id with | .ok (some e) => some e | _ => none
        | none => none
      match l with
      | some e => .ok (some e)
      | none => .ok none

/-- An entry's metadata with the "_layer" tag removed, for comparing
aggregated search results with per-layer ones. -/
def stripLayerTag (e : Entry) : Entry :=
  { e with metadata := e.metadata.filter (fun kv => kv.1 ≠ "_layer") }

/-- Fixture: a summary memory whose thresholds are zero — the claim's
reading would trigger compression on the very first save. -/
def cfgZero : SummaryConfig :=
  { maxEntries := 0, maxTokens := 0, keepRecent := 0,
    summaryPromptFmt := id, progressiveSummary := false, bufferCapacity := 100 }

def memZero : SummaryMemory :=
  { buffer := NewBuffer 100, config := cfgZero, summary := "", summaryTime := 0 }

def summarizerOK : String → Except String String := fun _ => .ok "S"

def entryU : Entry :=
  { id := "", role := "user", content := "hi", metadata := [], embedding := [],
    createdAt := 0, updatedAt := 0 }

/-- Fixture for the compression path: threshold 2, keep 1, third save
trips it. -/
def entryW1 : Entry :=
  { id := "w1", role := "user", content := "one", metadata := [], embedding := [],
    createdAt := 1, updatedAt := 0 }

def entryW2 : Entry :=
  { id := "w2", role := "assistant", content := "two", metadata := [], embedding := [],
    createdAt := 2, updatedAt := 0 }

def entryW3 : Entry :=
  { id := "", role := "user", content := "three", metadata := [], embedding := [],
    createdAt := 0, updatedAt := 0 }

def cfgW : SummaryConfig :=
  { maxEntries := 2, maxTokens := 0, keepRecent := 1,
    summaryPromptFmt := id, progressiveSummary := false, bufferCapacity := 10 }

def bufW : BufferMemory :=
  { entries := [entryW1, entryW2], capacity := 10 }

def memW : SummaryMemory :=
  { buffer := bufW, config := cfgW, summary := "", summaryTime := 0 }

/-- Fixture: two working entries and one short-term entry, searched with
limit 2 — each layer honours the limit, but their concatenation exceeds
it. -/
def entryM1 : Entry :=
  { id := "m1", role := "user", content := "alpha", metadata := [], embedding := [],
    createdAt := 1, updatedAt := 0 }

def entryM2 : Entry :=
  { id := "m2", role := "assistant", content := "beta", metadata := [], embedding := [],
    createdAt := 2, updatedAt := 0 }

def entryS1 : Entry :=
  { id := "s1", role := "user", content := "gamma", metadata := [], embedding := [],
    createdAt := 3, updatedAt := 0 }

def stWX : SummaryMemory :=
  { buffer := { entries := [entryS1], capacity := 100 }, config := cfgZero,
    summary := "", summaryTime := 0 }

def mlWX : MultiLayerMemory :=
  { working := { entries := [entryM1, entryM2], capacity := 10 },
    shortTerm := some stWX, longTerm := none }

def qLimit2 : SearchQuery :=
  { query := "", embedding := [], limit := 2, offset := 0, roles := [],
    sinceTime := none, untilTime := none, metadata := [], orderDesc := false }

/-! Theorems settling the claims, with their supporting lemmas and witnesses. -/

/-- C1: under least_cost with an empty request model, the router picks
provider b even though provider a offers the globally cheapest model: the
`i == 0` initialization in leastCostSelect lets the last model of the first
provider seed the running minimum. -/
theorem leastCost_not_minimal :
    routerLC.selectProviderName reqNoModel 0 = some "b" ∧
    modelA1 ∈ provA.models ∧
    ∀ m ∈ provB.models, modelA1.inputCost + modelA1.outputCost < m.inputCost + m.outputCost := by
  refine ⟨?_, by simp [provA], ?_⟩
  · simp [Router.selectProviderName, Router.selectProvider, Router.getHealthyProviders,
      Router.leastCostSelect, leastCostScan, leastCostModels, routerLC, provA, provB,
      modelA1, modelA2, modelB1, reqNoModel, assocGetD, List.lookup]
    norm_num
    simp [Except.toOption]
  · intro m hm
    simp only [provB, List.mem_singleton] at hm
    subst hm
    norm_num [modelA1, modelB1]

/-- C2: when the request names a model that is mapped to a registered
provider which is healthy (or health checking is disabled), selectProvider
returns that provider before the strategy switch is ever consulted. -/
theorem modelMatch_precedence (r : Router) (req : CompletionRequest) (p : String)
    (prov : Provider) (randPick : Nat)
    (hm : req.model ≠ "")
    (hmap : r.modelMap.lookup req.model = some p)
    (hreg : r.providers.lookup p = some prov)
    (hh : r.healthCheck = false ∨ assocGetD r.healthy p false = true)
    (hl : r.providerList ≠ []) :
    r.selectProvider req randPick = .ok (p, prov) := by
  have h1 : r.providerList.isEmpty = false := by
    simp [List.isEmpty_iff, hl]
  rcases hh with hh | hh
  · simp [Router.selectProvider, h1, hm, hmap, hreg, hh]
  · by_cases hc : r.healthCheck <;>
      simp [Router.selectProvider, h1, hm, hmap, hreg, hh, hc]

/-- Witness for modelMatch_precedence: requesting "b1" on a weighted-strategy
router with health checks on returns provider b. -/
theorem modelMatch_precedence_witness :
    routerMM.selectProvider reqB1 7 = .ok ("b", provB) :=
  modelMatch_precedence routerMM reqB1 "b" provB 7
    (by decide) (by decide) rfl (Or.inr (by decide)) (by decide)

/-- C5 counterexample: with a single provider p that is also the configured
fallback, a failing Complete invokes p twice — the code does not check that
the fallback differs from the provider originally chosen. -/
theorem complete_retries_same_fallback :
    (routerFB.completeRun reqNoModel 0).2 = ["p", "p"] ∧
    routerFB.selectProviderName reqNoModel 0 = some routerFB.fallback ∧
    (["p", "p"] : List String) ≠ ["p"] := by
  decide

/-- C5 amended: on a provider error, Complete and Stream retry exactly once
via the fallback iff the fallback name is non-empty and registered — even
when it coincides with the originally chosen provider — returning the
fallback call's result as-is; otherwise the original error is returned
unmodified. -/
theorem fallback_retry_iff (r : Router) (req : CompletionRequest) (randPick : Nat)
    (n : String) (prov : Provider) (e e' : String)
    (hsel : r.selectProvider req randPick = .ok (n, prov))
    (hc : prov.complete req = .error e)
    (hs : prov.stream req = .error e') :
    ((r.completeRun req randPick).2 = [n, r.fallback] ↔
      r.fallback ≠ "" ∧ (r.providers.lookup r.fallback).isSome) ∧
    ((r.streamRun req randPick).2 = [n, r.fallback] ↔
      r.fallback ≠ "" ∧ (r.providers.lookup r.fallback).isSome) ∧
    (∀ fb, r.fallback ≠ "" → r.providers.lookup r.fallback = some fb →
      r.completeRun req randPick = (fb.complete req, [n, r.fallback]) ∧
      r.streamRun req randPick = (fb.stream req, [n, r.fallback])) ∧
    (¬(r.fallback ≠ "" ∧ (r.providers.lookup r.fallback).isSome) →
      r.completeRun req randPick = (.error e, [n]) ∧
      r.streamRun req randPick = (.error e', [n])) := by
  have hcr : r.completeRun req randPick =
      (if r.fallback ≠ "" then
        match r.providers.lookup r.fallback with
        | some fb => (fb.complete req, [n, r.fallback])
        | none => (.error e, [n])
      else (.error e, [n])) := by
    simp [Router.completeRun, hsel, hc]
  have hsr : r.streamRun req randPick =
      (if r.fallback ≠ "" then
        match r.providers.lookup r.fallback with
        | some fb => (fb.stream req, [n, r.fallback])
        | none => (.error e', [n])
      else (.error e', [n])) := by
    simp [Router.streamRun, hsel, hs]
  by_cases hf : r.fallback = ""
  · refine ⟨?_, ?_, ?_, ?_⟩ <;>
      simp [hcr, hsr, hf]
  · cases hlk : r.providers.lookup r.fallback with
    | none =>
      refine ⟨?_, ?_, ?_, ?_⟩ <;>
        simp [hcr, hsr, hf, hlk]
    | some fb =>
      refine ⟨?_, ?_, ?_, ?_⟩ <;>
        simp [hcr, hsr, hf, hlk]

/-- Witness for fallback_retry_iff at the single-provider self-fallback
router. -/
theorem fallback_retry_iff_witness :
    ((routerFB.completeRun reqNoModel 0).2 = ["p", routerFB.fallback] ↔
      routerFB.fallback ≠ "" ∧ (routerFB.providers.lookup routerFB.fallback).isSome) ∧
    ((routerFB.streamRun reqNoModel 0).2 = ["p", routerFB.fallback] ↔
      routerFB.fallback ≠ "" ∧ (routerFB.providers.lookup routerFB.fallback).isSome) ∧
    (∀ fb, routerFB.fallback ≠ "" → routerFB.providers.lookup routerFB.fallback = some fb →
      routerFB.completeRun reqNoModel 0 = (fb.complete reqNoModel, ["p", routerFB.fallback]) ∧
      routerFB.streamRun reqNoModel 0 = (fb.stream reqNoModel, ["p", routerFB.fallback])) ∧
    (¬(routerFB.fallback ≠ "" ∧ (routerFB.providers.lookup routerFB.fallback).isSome) →
      routerFB.completeRun reqNoModel 0 = (.error "boom", ["p"]) ∧
      routerFB.streamRun reqNoModel 0 = (.error "boom", ["p"])) :=
  fallback_retry_iff routerFB reqNoModel 0 "p" provFail "boom" "boom" rfl rfl rfl

/-- C3 counterexample: at an estimated cost of 0.095 the code returns
1 - 0.095/0.1 = 0.05, strictly below the 0.1 floor the claim asserts. -/
theorem costScore_below_claimed_floor :
    calculateCostScore candCS (some ctxCS) reqNoModel = 1/20 ∧
    costScoreSpec candCS (some ctxCS) reqNoModel = 1/10 ∧
    (1/20 : ℚ) ≠ 1/10 := by
  refine ⟨?_, ?_, by norm_num⟩ <;>
    norm_num [calculateCostScore, costScoreSpec, estimateCost, candCS, modelCS, ctxCS,
      reqNoModel, defaultConstraints, newRoutingContext]

/-- C3 amended: the code's cost axis equals the specification formula with
the floor corrected — 0 on exceeding a positive budget, 1 - cost/0.1 while
the estimate is below 0.1, and 0.1 from there on. -/
theorem costScore_amended_formula (c : Candidate) (ctx : Option RoutingContext)
    (req : CompletionRequest) :
    calculateCostScore c ctx req = costScoreSpecAmended c ctx req := by
  have hc : estimateCost c req = estimatedCostSpec c req := by
    unfold estimateCost estimatedCostSpec
    ring
  unfold calculateCostScore costScoreSpecAmended
  rw [hc]
  rcases ctx with _ | cx
  · simp only []
    split_ifs with h1 h2 <;> first | rfl | linarith
  · simp only []
    split_ifs with h1 h2 h3 <;> first | rfl | linarith

/-- Head of a stable descending insertion sort: the earliest element of the
input attaining the maximal key. -/
theorem insertionSort_head_firstMax {α : Type} (f : α → ℚ) (l : List α) :
    (List.insertionSort (fun a b => f b ≤ f a) l).head? = firstMaxBy f l := by
  induction l with
  | nil => rfl
  | cons x xs ih =>
    show (List.orderedInsert _ x (List.insertionSort _ xs)).head? = _
    cases h : List.insertionSort (fun a b => f b ≤ f a) xs with
    | nil =>
      have hxs : xs = [] := by
        have hlen := congrArg List.length h
        simpa [List.length_insertionSort] using hlen
      subst hxs
      simp [List.orderedInsert, firstMaxBy]
    | cons y ys =>
      have hmax : firstMaxBy f xs = some y := by
        rw [← ih, h]
        rfl
      by_cases hle : f y ≤ f x
      · simp [List.orderedInsert, hle, firstMaxBy, hmax]
      · simp [List.orderedInsert, hle, firstMaxBy, hmax]

/-- C4 counterexample: the same smart-router state, request and context give
different decisions under the two provider-map enumeration orders, both of
which are permutations of the registered providers — the candidates tie at
every score axis and the tie falls to whichever provider the map iteration
yields first. -/
theorem route_depends_on_enumeration_order :
    routeProviderName smartTie reqNoModel none ["a", "b"] = some "a" ∧
    routeProviderName smartTie reqNoModel none ["b", "a"] = some "b" ∧
    List.Perm ["a", "b"] smartTie.base.providerList ∧
    List.Perm ["b", "a"] smartTie.base.providerList := by
  refine ⟨?_, ?_, by decide, by decide⟩ <;>
    · simp [routeProviderName, SmartRouter.route, SmartRouter.scoredCandidates,
        SmartRouter.effectiveCtx, SmartRouter.autoClassifyRequest, SmartRouter.getCandidates,
        SmartRouter.calculateScore, calculateTaskScore, calculateComplexityScore,
        calculateCostScore, calculateLatencyScore, calculateCapabilityScore,
        calculatePreferenceScore, calculateTotalScore, estimateCost, SmartRouter.estimateLatency,
        isProviderExcluded, isModelExcluded, meetsCapabilityRequirements,
        smartTie, routerTie, provTieA, provTieB, modelMA, modelMB, reqNoModel,
        assocGetD, List.lookup, List.insertionSort, List.orderedInsert, Except.toOption]

/-- C4 amended: for a fixed enumeration order the decision is the earliest
scored candidate attaining the maximal total score; equal-score candidates
are resolved by enumeration order, which Go randomizes across invocations. -/
theorem route_selects_first_max (r : SmartRouter) (req : CompletionRequest)
    (routingCtx : Option RoutingContext) (order : List String) (s : ScoredCandidate)
    (hmax : firstMaxBy (fun sc : ScoredCandidate => sc.score.total)
      (r.scoredCandidates req routingCtx order) = some s) :
    ∃ d, r.route req routingCtx order = .ok d ∧
      d.providerName = s.candidate.providerName ∧
      d.modelID = s.candidate.modelID ∧
      d.score = s.score.total := by
  have hhead := insertionSort_head_firstMax
    (fun sc : ScoredCandidate => sc.score.total) (r.scoredCandidates req routingCtx order)
  rw [hmax] at hhead
  unfold SmartRouter.route
  cases hs : List.insertionSort (fun a b : ScoredCandidate => b.score.total ≤ a.score.total)
      (r.scoredCandidates req routingCtx order) with
  | nil =>
    rw [hs] at hhead
    simp at hhead
  | cons best rest =>
    rw [hs] at hhead
    simp only [List.head?] at hhead
    cases hhead
    exact ⟨_, rfl, rfl, rfl, rfl⟩

/-- Witness for route_selects_first_max on the two-provider tie fixture with
enumeration order a before b. -/
theorem route_selects_first_max_witness :
    ∃ d, smartTie.route reqNoModel none ["a", "b"] = .ok d ∧
      d.providerName = "a" ∧ d.modelID = "ma" ∧ d.score = (27/40 : ℚ) := by
  have h := route_selects_first_max smartTie reqNoModel none ["a", "b"]
    { candidate :=
        { providerName := "a", modelID := "ma", modelInfo := modelMA, profile := none },
      score :=
        { total := 27/40, taskScore := 1/2, complexityScore := 1/2, costScore := 1,
          latencyScore := 1/2, capabilityScore := 1, preferenceScore := 1/2 } }
    (by
      simp [SmartRouter.scoredCandidates, SmartRouter.effectiveCtx,
        SmartRouter.autoClassifyRequest, SmartRouter.getCandidates, SmartRouter.calculateScore,
        calculateTaskScore, calculateComplexityScore, calculateCostScore, calculateLatencyScore,
        calculateCapabilityScore, calculatePreferenceScore, calculateTotalScore, estimateCost,
        isProviderExcluded, isModelExcluded, meetsCapabilityRequirements, smartTie, routerTie,
        provTieA, provTieB, modelMA, modelMB, reqNoModel, assocGetD, List.lookup, firstMaxBy]
      norm_num [firstMaxBy])
  simpa using h

/-- C6: with a nil routing context, StreamWithRouting auto-classifies but
never force-adds the streaming capability, so its decision selects a model
that does not advertise streaming. -/
theorem stream_route_selects_nonstreaming_model :
    streamRouteModelID smartNS reqNoModel none ["p"] = some "m" ∧
    modelNS.hasFeature "streaming" = false ∧
    smartNS.autoClassify = true := by
  refine ⟨?_, by decide, by decide⟩
  simp [streamRouteModelID, SmartRouter.streamRouteDecision, SmartRouter.route,
    SmartRouter.scoredCandidates, SmartRouter.effectiveCtx, SmartRouter.autoClassifyRequest,
    SmartRouter.getCandidates, SmartRouter.calculateScore, calculateTaskScore,
    calculateComplexityScore, calculateCostScore, calculateLatencyScore,
    calculateCapabilityScore, calculatePreferenceScore, calculateTotalScore, estimateCost,
    SmartRouter.estimateLatency, isProviderExcluded, isModelExcluded,
    meetsCapabilityRequirements, newRoutingContext, defaultConstraints, ModelInfo.hasFeature,
    smartNS, routerNS, provNS, modelNS, reqNoModel, assocGetD, List.lookup,
    List.insertionSort, List.orderedInsert, Except.toOption]

/-- Save keeps the entry count within capacity. -/
theorem bufferSave_length_le (m : BufferMemory) (fid : String) (now : Nat) (e : Entry)
    (hcap : 1 ≤ m.capacity) (hlen : m.entries.length ≤ m.capacity) :
    (m.save fid now e).entries.length ≤ m.capacity := by
  unfold BufferMemory.save
  by_cases hfull : m.entries.length ≥ m.capacity
  · have heq : m.entries.length = m.capacity := le_antisymm hlen hfull
    simp [hfull, List.length_tail]
    omega
  · simp [hfull]
    omega

/-- Save preserves the capacity. -/
theorem bufferSave_capacity (m : BufferMemory) (fid : String) (now : Nat) (e : Entry) :
    (m.save fid now e).capacity = m.capacity := rfl

/-- A single Save in terms of the combined stream: append the stamped
entry and drop the one-element overflow from the front, if any. -/
theorem bufferSave_entries_eq (m : BufferMemory) (fid : String) (now : Nat) (e : Entry)
    (hcap : 1 ≤ m.capacity) (hlen : m.entries.length ≤ m.capacity) :
    (m.save fid now e).entries =
      (m.entries ++ [stampEntry fid now e]).drop (m.entries.length + 1 - m.capacity) := by
  unfold BufferMemory.save
  by_cases hfull : m.entries.length ≥ m.capacity
  · have heq : m.entries.length = m.capacity := le_antisymm hlen hfull
    have hidx : m.entries.length + 1 - m.capacity = 1 := by omega
    simp only [hfull, if_true, hidx]
    rw [List.drop_append_of_le_length (by omega), List.drop_one]
  · have hidx : m.entries.length + 1 - m.capacity = 0 := by omega
    simp [hfull, hidx]

/-- A run of Saves keeps exactly the last capacity-many stamped entries:
the combined stream of pre-existing and newly stamped entries, with the
overflow dropped from the front. -/
theorem saveMany_entries (xs : List (String × Nat × Entry)) (m : BufferMemory)
    (hcap : 1 ≤ m.capacity) (hlen : m.entries.length ≤ m.capacity) :
    (m.saveMany xs).entries =
      (m.entries ++ stampedEntries xs).drop (m.entries.length + xs.length - m.capacity) := by
  induction xs generalizing m with
  | nil =>
    have h0 : m.entries.length - m.capacity = 0 := by omega
    simp [BufferMemory.saveMany, stampedEntries, h0]
  | cons x rest ih =>
    have hstamp : stampedEntries (x :: rest) =
        stampEntry x.1 x.2.1 x.2.2 :: stampedEntries rest := rfl
    have hone := bufferSave_entries_eq m x.1 x.2.1 x.2.2 hcap hlen
    have hlen' : (m.save x.1 x.2.1 x.2.2).entries.length ≤ m.capacity :=
      bufferSave_length_le m x.1 x.2.1 x.2.2 hcap hlen
    have ihx := ih (m.save x.1 x.2.1 x.2.2)
    rw [bufferSave_capacity] at ihx
    have hrec := ihx hcap hlen'
    show ((m.save x.1 x.2.1 x.2.2).saveMany rest).entries = _
    rw [hrec, hone, ← List.drop_append_of_le_length
      (by simp only [List.length_append, List.length_singleton]; omega), List.drop_drop, hstamp]
    have hlendrop : (((m.entries ++ [stampEntry x.1 x.2.1 x.2.2]).drop
        (m.entries.length + 1 - m.capacity)).length) =
        m.entries.length + 1 - (m.entries.length + 1 - m.capacity) := by
      simp [List.length_drop]
    rw [hlendrop]
    simp only [List.append_assoc, List.singleton_append, List.length_append, List.length_cons]
    congr 1
    omega

/-- C7: a fresh buffer of requested capacity c (100 when c is not positive)
holds, after any run of saves, exactly the last min(n, capacity) stamped
entries in insertion order. -/
theorem buffer_fifo_retains_last (capacity : Int) (xs : List (String × Nat × Entry)) :
    ((NewBuffer capacity).saveMany xs).entries.length =
      min xs.length (NewBuffer capacity).capacity ∧
    ((NewBuffer capacity).saveMany xs).entries =
      (stampedEntries xs).drop (xs.length - (NewBuffer capacity).capacity) ∧
    (NewBuffer capacity).capacity = (if capacity ≤ 0 then 100 else capacity.toNat) := by
  have hcap : 1 ≤ (NewBuffer capacity).capacity := by
    show 1 ≤ (if capacity ≤ 0 then 100 else capacity.toNat)
    split_ifs with h
    · norm_num
    · omega
  have h := saveMany_entries xs (NewBuffer capacity) hcap (by simp [NewBuffer])
  have hnil : (NewBuffer capacity).entries = [] := rfl
  rw [hnil] at h
  simp only [List.nil_append, List.length_nil, Nat.zero_add] at h
  refine ⟨?_, h, rfl⟩
  rw [h, List.length_drop]
  have hlenstamped : (stampedEntries xs).length = xs.length := by
    simp [stampedEntries]
  omega

/-- Re-saving entries that already carry ids and timestamps is the
identity stamp. -/
theorem stampEntry_noop (e : Entry) : stampEntry "" 0 e = e := by
  cases e with
  | mk id role content metadata embedding createdAt updatedAt =>
    unfold stampEntry
    by_cases h1 : id = "" <;> by_cases h2 : createdAt = 0 <;> simp [h1, h2]

/-- Folding Save over entries that fit within capacity appends them in
order. -/
theorem foldSave_append (l : List Entry) (b : BufferMemory)
    (hfit : b.entries.length + l.length ≤ b.capacity) :
    (l.foldl (fun b e => b.save "" 0 e) b).entries = b.entries ++ l := by
  induction l generalizing b with
  | nil => simp
  | cons e rest ih =>
    have hlt : ¬ b.entries.length ≥ b.capacity := by
      simp only [List.length_cons] at hfit
      omega
    have hes : (b.save "" 0 e).entries = b.entries ++ [e] := by
      simp [BufferMemory.save, hlt, stampEntry_noop]
    have hfit' : (b.save "" 0 e).entries.length + rest.length ≤ (b.save "" 0 e).capacity := by
      rw [hes, bufferSave_capacity]
      simp only [List.length_append, List.length_singleton, List.length_cons,
        List.length_nil] at hfit ⊢
      omega
    show (rest.foldl (fun b e => b.save "" 0 e) (b.save "" 0 e)).entries = _
    rw [ih (b.save "" 0 e) hfit', hes]
    simp

/-- C8 counterexample: with max_entries = 0 the claim's condition
entry_count > max_entries holds after one save (1 > 0, keep_recent = 0, so
the claim demands compression down to 0 retained entries), yet the code —
whose threshold checks also require the threshold to be positive — keeps
the entry and produces no summary. -/
theorem summary_trigger_needs_positive_threshold :
    ((memZero.save summarizerOK "e1" 5 entryU).toOption.map
      (fun m => (m.buffer.entries.length, m.summary))) = some (1, "") ∧
    ((1 : Int) > memZero.config.maxEntries) ∧
    memZero.config.keepRecent = 0 ∧
    (1 : Nat) ≠ 0 := by
  decide

/-- C8 amended: a save never fails; compression triggers exactly when
max_entries is positive and the new entry count exceeds it (the token
clause can never fire because the buffer's Stats leaves TokenCount at 0);
when it triggers with more than keep_recent entries and the summarizer
succeeds, the new summary is installed and exactly the keep_recent most
recent entries remain. -/
theorem summary_save_amended (m : SummaryMemory)
    (summarizer : String → Except String String) (fid : String) (now : Nat) (e : Entry)
    (s : String)
    (hcap : 1 ≤ m.buffer.capacity)
    (hlen : m.buffer.entries.length ≤ m.buffer.capacity)
    (hkeep : 0 ≤ m.config.keepRecent) :
    (∃ m₂, m.save summarizer fid now e = .ok m₂) ∧
    (({ m with buffer := m.buffer.save fid now e } : SummaryMemory).shouldSummarize = true ↔
      (0 < m.config.maxEntries ∧
        m.config.maxEntries < ((m.buffer.save fid now e).entries.length : Int))) ∧
    (({ m with buffer := m.buffer.save fid now e } : SummaryMemory).shouldSummarize = false →
      m.save summarizer fid now e = .ok { m with buffer := m.buffer.save fid now e }) ∧
    (∀ m₂, m.save summarizer fid now e = .ok m₂ →
      ({ m with buffer := m.buffer.save fid now e } : SummaryMemory).shouldSummarize = true →
      m.config.keepRecent < ((m.buffer.save fid now e).entries.length : Int) →
      summarizer ({ m with buffer := m.buffer.save fid now e } : SummaryMemory).compressionPrompt
        = .ok s →
      m₂.summary = s ∧
      m₂.buffer.entries =
        (m.buffer.save fid now e).entries.drop
          ((m.buffer.save fid now e).entries.length - m.config.keepRecent.toNat) ∧
      (m₂.buffer.entries.length : Int) = m.config.keepRecent) := by
  have hlen₁ : (m.buffer.save fid now e).entries.length ≤ m.buffer.capacity :=
    bufferSave_length_le m.buffer fid now e hcap hlen
  refine ⟨?_, ?_, ?_, ?_⟩
  · by_cases ht : ({ m with buffer := m.buffer.save fid now e } : SummaryMemory).shouldSummarize
    · refine ⟨({ m with buffer := m.buffer.save fid now e } : SummaryMemory).doSummarize
        summarizer now, ?_⟩
      simp only [SummaryMemory.save]
      rw [if_pos ht]
    · refine ⟨{ m with buffer := m.buffer.save fid now e }, ?_⟩
      simp only [SummaryMemory.save]
      rw [if_neg ht]
  · simp only [SummaryMemory.shouldSummarize, BufferMemory.stats, decide_eq_true_eq]
    constructor
    · rintro (⟨h1, h2⟩ | ⟨h1, h2⟩)
      · exact ⟨h1, h2⟩
      · omega
    · rintro ⟨h1, h2⟩
      exact Or.inl ⟨h1, h2⟩
  · intro ht
    unfold SummaryMemory.save
    simp [ht]
  · intro m₂ hm₂ ht hmore hsum
    have hkeepN : m.config.keepRecent.toNat ≤ (m.buffer.save fid now e).entries.length := by
      omega
    have hdroplen :
        ((m.buffer.save fid now e).entries.drop
          ((m.buffer.save fid now e).entries.length - m.config.keepRecent.toNat)).length =
        m.config.keepRecent.toNat := by
      rw [List.length_drop]
      omega
    have hfold := foldSave_append
      ((m.buffer.save fid now e).entries.drop
        ((m.buffer.save fid now e).entries.length - m.config.keepRecent.toNat))
      (m.buffer.save fid now e).clear
      (by
        simp only [BufferMemory.clear, List.length_nil, Nat.zero_add, hdroplen]
        rw [bufferSave_capacity]
        omega)
    have hdo : ({ m with buffer := m.buffer.save fid now e } : SummaryMemory).doSummarize
        summarizer now =
        { buffer :=
            ((m.buffer.save fid now e).entries.drop
              ((m.buffer.save fid now e).entries.length - m.config.keepRecent.toNat)).foldl
              (fun b e => b.save "" 0 e) (m.buffer.save fid now e).clear,
          config := m.config, summary := s, summaryTime := now } := by
      unfold SummaryMemory.doSummarize
      rw [if_neg (by simpa using not_le.mpr hmore)]
      rw [hsum]
    have hm₂' : m₂ =
        ({ m with buffer := m.buffer.save fid now e } : SummaryMemory).doSummarize
          summarizer now := by
      have hsave : m.save summarizer fid now e =
          .ok (({ m with buffer := m.buffer.save fid now e } : SummaryMemory).doSummarize
            summarizer now) := by
        simp only [SummaryMemory.save]
        rw [if_pos ht]
      rw [hsave] at hm₂
      cases hm₂
      rfl
    subst hm₂'
    rw [hdo]
    refine ⟨rfl, ?_, ?_⟩
    · simpa [BufferMemory.clear] using hfold
    · have hrw : (({ m with buffer := m.buffer.save fid now e } :
          SummaryMemory).buffer.entries) = (m.buffer.save fid now e).entries := rfl
      rw [hfold]
      simp only [BufferMemory.clear, List.nil_append, hdroplen]
      omega

/-- Witness for summary_save_amended: saving a third entry into a
threshold-2 summary memory compresses down to the single most recent
entry and installs the summarizer's output. -/
theorem summary_save_amended_witness :
    ∃ m₂, memW.save summarizerOK "e3" 3 entryW3 = .ok m₂ ∧
      m₂.summary = "S" ∧ m₂.buffer.entries.length = 1 := by
  obtain ⟨⟨m₂, hm₂⟩, htrig, hquiet, hcomp⟩ :=
    summary_save_amended memW summarizerOK "e3" 3 entryW3 "S"
      (by decide) (by decide) (by decide)
  obtain ⟨hsum, hentries, hlen⟩ := hcomp m₂ hm₂ (by decide) (by decide) rfl
  refine ⟨m₂, hm₂, hsum, ?_⟩
  have hk : memW.config.keepRecent = 1 := rfl
  omega

/-- C9 counterexample: the aggregated Search truncates the concatenated
per-layer results to the query limit, so it returns 2 entries while the
union of the per-layer SearchLayer results has 3 — the two differ even
after removing the layer tags. -/
theorem multilayer_search_truncates_union :
    (mlWX.search qLimit2).length = 2 ∧
    ((mlWX.searchLayer "working" qLimit2).toOption.getD []).length +
      ((mlWX.searchLayer "short_term" qLimit2).toOption.getD []).length = 3 ∧
    ¬((mlWX.search qLimit2).map stripLayerTag =
        (mlWX.searchLayer "working" qLimit2).toOption.getD [] ++
          (mlWX.searchLayer "short_term" qLimit2).toOption.getD []) := by
  decide

/-- C9 amended: the aggregated Search equals the concatenation of the
per-layer SearchLayer results — each tagged with its layer, absent or
erroring layers contributing nothing, and the long-term layer included
only when the query carries text or a vector — truncated to the query
limit. -/
theorem multilayer_search_union_amended (m : MultiLayerMemory) (q : SearchQuery) :
    m.search q =
      truncLimit q.limit
        (((m.searchLayer "working" q).toOption.getD []).map (tagLayer "working") ++
         ((m.searchLayer "short_term" q).toOption.getD []).map (tagLayer "short_term") ++
         (if q.query ≠ "" ∨ q.embedding.length > 0 then
            ((m.searchLayer "long_term" q).toOption.getD []).map (tagLayer "long_term")
          else [])) := by
  rcases hst : m.shortTerm with _ | st <;> rcases hlt : m.longTerm with _ | lt
  · simp [MultiLayerMemory.search, MultiLayerMemory.searchLayer, hst, hlt, Except.toOption]
  · rcases hsearch : lt.search q with err | es <;>
      by_cases hq : q.query ≠ "" ∨ q.embedding.length > 0 <;>
        simp [MultiLayerMemory.search, MultiLayerMemory.searchLayer, hst, hlt, hsearch, hq,
          Except.toOption]
  · simp [MultiLayerMemory.search, MultiLayerMemory.searchLayer, hst, hlt, Except.toOption]
  · rcases hsearch : lt.search q with err | es <;>
      by_cases hq : q.query ≠ "" ∨ q.embedding.length > 0 <;>
        simp [MultiLayerMemory.search, MultiLayerMemory.searchLayer, hst, hlt, hsearch, hq,
          Except.toOption]

/-- C10: for ids that are not stored, Get returns a nil entry and a nil
error on the buffer, vector and multi-layer memories alike. -/
theorem get_absent_nil_nil (b : BufferMemory) (v : VectorMemory) (ml : MultiLayerMemory)
    (id : String)
    (hb : ∀ e ∈ b.entries, e.id ≠ id)
    (hv : v.entries.lookup id = none)
    (hw : ∀ e ∈ ml.working.entries, e.id ≠ id)
    (hs : ∀ st, ml.shortTerm = some st → ∀ e ∈ st.buffer.entries, e.id ≠ id)
    (hl : ∀ lt, ml.longTerm = some lt → lt.entries.lookup id = none) :
    b.get id = .ok none ∧ v.get id = .ok none ∧ ml.get id = .ok none := by
  have hfind : ∀ (l : List Entry), (∀ e ∈ l, e.id ≠ id) →
      l.find? (fun e => e.id = id) = none := by
    intro l hl'
    rw [List.find?_eq_none]
    intro e he
    simpa using hl' e he
  refine ⟨?_, ?_, ?_⟩
  · simp [BufferMemory.get, hfind b.entries hb]
  · simp [VectorMemory.get, hv]
  · unfold MultiLayerMemory.get
    have hwg : ml.working.get id = .ok none := by
      simp [BufferMemory.get, hfind ml.working.entries hw]
    rcases hst : ml.shortTerm with _ | st <;> rcases hlt : ml.longTerm with _ | lt
    · simp [hwg]
    · have hlg := hl lt hlt
      simp [hwg, VectorMemory.get, hlg]
    · have hsg : st.get id = .ok none := by
        simp [SummaryMemory.get, BufferMemory.get, hfind st.buffer.entries (hs st hst)]
      simp [hwg, hsg]
    · have hsg : st.get id = .ok none := by
        simp [SummaryMemory.get, BufferMemory.get, hfind st.buffer.entries (hs st hst)]
      have hlg := hl lt hlt
      simp [hwg, hsg, VectorMemory.get, hlg]

/-- Witness for get_absent_nil_nil on small populated memories and a
missing id. -/
theorem get_absent_nil_nil_witness :
    ({ entries := [entryM1], capacity := 10 } : BufferMemory).get "nope" = .ok none ∧
    ({ entries := [("v1", entryS1)], embedder := fun _ => .error "unused",
       storeSearch := fun _ _ => .ok [], minScore := 0, defaultTopK := 10 } :
        VectorMemory).get "nope" = .ok none ∧
    ({ working := { entries := [entryM1], capacity := 10 }, shortTerm := some stWX,
       longTerm := none } : MultiLayerMemory).get "nope" = .ok none :=
  get_absent_nil_nil
    { entries := [entryM1], capacity := 10 }
    { entries := [("v1", entryS1)], embedder := fun _ => .error "unused",
      storeSearch := fun _ _ => .ok [], minScore := 0, defaultTopK := 10 }
    { working := { entries := [entryM1], capacity := 10 }, shortTerm := some stWX,
      longTerm := none }
    "nope"
    (by decide) rfl (by decide)
    (by
      intro st hst
      cases hst
      decide)
    (by intro lt hlt; cases hlt)

end AiCore
